import Mathlib

/-!
Verification development for the f1-multilingual-rag-chatbot repository.

The Python sources are shallowly embedded in Lean: Python text is modelled
as `List Char`, Python dicts whose keys matter to the properties are
modelled as association lists over an enumerated key type, fallible
external calls (HTTP requests, the LangChain splitter, the translator, the
QA chain, the Pinecone SDK) are modelled as `Except` valued parameters,
and each wrapped function of the repository is translated as written,
broad try/except blocks included.
-/

/-- The characters of a Lean string literal, as the model of a Python str. -/
def strL (s : String) : List Char := s.data

/-- The decimal digits of a natural number, as Python str(i) / f-string
interpolation renders a nonnegative int. -/
def natChars (n : Nat) : List Char := (Nat.repr n).data

/-- Python str.strip() whitespace test (ASCII whitespace as in CPython). -/
def isPySpace (c : Char) : Bool :=
  c = ' ' || c = '\t' || c = '\n' || c = '\r' || c = '\x0b' || c = '\x0c'

/-- Python str.strip(): drop leading and trailing whitespace. -/
def pyStrip (s : List Char) : List Char :=
  ((s.dropWhile isPySpace).reverse.dropWhile isPySpace).reverse

/-- Split a text at the first occurrence of `sep`: `some (pre, post)` with
the text equal to `pre ++ sep ++ post` and the occurrence the leftmost one,
or `none` when `sep` does not occur.  Models the position search behind
Python substring tests and `split`. -/
def splitFirst (sep : List Char) : List Char → Option (List Char × List Char)
  | [] => if sep.isEmpty then some ([], []) else none
  | c :: rest =>
    if sep.isPrefixOf (c :: rest) then some ([], (c :: rest).drop sep.length)
    else
      match splitFirst sep rest with
      | none => none
      | some (pre, post) => some (c :: pre, post)

/-- Python `sep in s`. -/
def pyContains (sep s : List Char) : Bool := (splitFirst sep s).isSome

/-- Fuelled worker for `pySplit`; the fuel is an upper bound on the number
of separator occurrences. -/
def pySplitF (sep : List Char) : Nat → List Char → List (List Char)
  | 0, s => [s]
  | fuel + 1, s =>
    match splitFirst sep s with
    | none => [s]
    | some (pre, post) => pre :: pySplitF sep fuel post

/-- Python s.split(sep) for a non-empty separator. -/
def pySplit (sep s : List Char) : List (List Char) :=
  pySplitF sep (s.length + 1) s

/-- Python s.endswith(suffix). -/
def pyEndsWith (s suffix : List Char) : Bool := suffix.isSuffixOf s

/-- The dict keys the embedded functions read or write.  Each constructor
stands for the Python string key of the same name (`type_` for "type",
`section_` for "section"). -/
inductive PyKey where
  | source | url | title | chunk_index | total_chunks | type_ | language
  | section_ | token_count
  | answer | sources | original_question | english_question | retrieved_docs
  | error | status | supported_languages | timestamp
  | message | scraped_documents | created_chunks
deriving DecidableEq, Repr

/-- A chunk metadata value: the metadata dicts built by the chunker hold
strings and ints. -/
inductive MVal where
  | s (v : List Char)
  | n (v : Nat)
deriving DecidableEq, Repr

/-- Lookup of a key in a metadata dict (association list). -/
def lookupMeta (k : PyKey) : List (PyKey × MVal) → Option MVal
  | [] => none
  | p :: rest => if p.1 = k then some p.2 else lookupMeta k rest

/-- A chunk as built by F1TextChunker: `{id, content, metadata}`. -/
structure Chunk where
  id : List Char
  content : List Char
  metadata : List (PyKey × MVal)
deriving DecidableEq, Repr

/-- One entry of a Wikipedia document sections list; an `Option` field
models presence of the dict key (`.get` with a default reads it). -/
structure WikiSection where
  sectionName : Option (List Char)
  content : Option (List Char)
deriving DecidableEq, Repr

/-- A raw scraped document dict; `Option` fields model presence of the
keys read via `.get`. `sections` models `.get('sections', [])`. -/
structure RawDoc where
  title : Option (List Char) := none
  content : Option (List Char) := none
  url : Option (List Char) := none
  source : Option (List Char) := none
  type_ : Option (List Char) := none
  language : Option (List Char) := none
  sectionVal : Option (List Char) := none
  summary : Option (List Char) := none
  sections : List WikiSection := []
deriving DecidableEq, Repr

namespace Config

/-- config.py CHUNK_SIZE: int(os.getenv('CHUNK_SIZE', 512)); modelled in
the default environment, with no override set. -/
def CHUNK_SIZE : Nat := 512

/-- config.py CHUNK_OVERLAP: int(os.getenv('CHUNK_OVERLAP', 100)); modelled
in the default environment, with no override set. -/
def CHUNK_OVERLAP : Nat := 100

/-- config.py TOP_K = 10. -/
def TOP_K : Nat := 10

/-- config.py SUPPORTED_LANGUAGES = ['en', 'hi']. -/
def SUPPORTED_LANGUAGES : List (List Char) := [strL "en", strL "hi"]

end Config

namespace F1TextChunker

/-- chunk_document line 33: full_text = f"Title: {title}\n\n{content}",
with title and content read via `.get(..., '')`. -/
def fullText (doc : RawDoc) : List Char :=
  strL "Title: " ++ doc.title.getD [] ++ strL "\n\n" ++ doc.content.getD []

/-- The metadata dict chunk_document builds for chunk number `i` of a
document split into `total` chunks (text_chunker.py lines 43-53). -/
def mkChunkMeta (tokenLen : List Char → Nat) (doc : RawDoc) (total i : Nat)
    (c : List Char) : List (PyKey × MVal) :=
  [(.source, .s (doc.source.getD (strL "Unknown"))),
   (.url, .s (doc.url.getD [])),
   (.title, .s (doc.title.getD [])),
   (.chunk_index, .n i),
   (.total_chunks, .n total),
   (.type_, .s (doc.type_.getD (strL "text"))),
   (.language, .s (doc.language.getD (strL "en"))),
   (.section_, .s (doc.sectionVal.getD [])),
   (.token_count, .n (tokenLen c))]

/-- The chunk dict chunk_document builds for chunk number `i`
(text_chunker.py lines 40-54): id = f"{document.get('url', 'unknown')}_{i}". -/
def mkChunk (tokenLen : List Char → Nat) (doc : RawDoc) (total i : Nat)
    (c : List Char) : Chunk :=
  { id := doc.url.getD (strL "unknown") ++ strL "_" ++ natChars i,
    content := c,
    metadata := mkChunkMeta tokenLen doc total i c }

/-- The `for i, chunk in enumerate(chunks)` loop of chunk_document, with
`i` starting from the given index. -/
def buildChunkDocs (tokenLen : List Char → Nat) (doc : RawDoc) (total : Nat) :
    Nat → List (List Char) → List Chunk
  | _, [] => []
  | i, c :: rest => mkChunk tokenLen doc total i c :: buildChunkDocs tokenLen doc total (i + 1) rest

/-- F1TextChunker.chunk_document (text_chunker.py lines 26-61).  The
external calls are parameters: `split` is self.text_splitter.split_text
and `tokenLen` is self._tiktoken_len; a raised exception from the splitter
is the `.error` case, caught by the broad except that returns []. -/
def chunk_document (split : List Char → Except (List Char) (List (List Char)))
    (tokenLen : List Char → Nat) (doc : RawDoc) : List Chunk :=
  match split (fullText doc) with
  | .error _ => []
  | .ok chunks => buildChunkDocs tokenLen doc chunks.length 0 chunks

/-- chunk_wikipedia_sections line 72:
summary_text = f"Title: {title}\n\nSummary: {summary}". -/
def summaryText (doc : RawDoc) (s : List Char) : List Char :=
  strL "Title: " ++ doc.title.getD [] ++ strL "\n\nSummary: " ++ s

/-- The summary chunk dict of chunk_wikipedia_sections (lines 76-89):
id = f"{base_url}_summary_{i}"; the metadata has no total_chunks key. -/
def mkWikiSummaryChunk (tokenLen : List Char → Nat) (doc : RawDoc) (i : Nat)
    (c : List Char) : Chunk :=
  { id := doc.url.getD [] ++ strL "_summary_" ++ natChars i,
    content := c,
    metadata :=
      [(.source, .s (doc.source.getD (strL "Wikipedia"))),
       (.url, .s (doc.url.getD [])),
       (.title, .s (doc.title.getD [])),
       (.chunk_index, .n i),
       (.type_, .s (strL "encyclopedia_summary")),
       (.language, .s (strL "en")),
       (.section_, .s (strL "Summary")),
       (.token_count, .n (tokenLen c))] }

/-- The `for i, chunk in enumerate(summary_chunks)` loop. -/
def buildWikiSummary (tokenLen : List Char → Nat) (doc : RawDoc) :
    Nat → List (List Char) → List Chunk
  | _, [] => []
  | i, c :: rest => mkWikiSummaryChunk tokenLen doc i c :: buildWikiSummary tokenLen doc (i + 1) rest

/-- chunk_wikipedia_sections line 95: section.get('section', f'Section_{section_idx}'). -/
def wikiSectionName (sec : WikiSection) (sidx : Nat) : List Char :=
  sec.sectionName.getD (strL "Section_" ++ natChars sidx)

/-- chunk_wikipedia_sections line 99:
section_text = f"Title: {title}\nSection: {section_name}\n\n{section_content}". -/
def sectionText (doc : RawDoc) (name content : List Char) : List Char :=
  strL "Title: " ++ doc.title.getD [] ++ strL "\nSection: " ++ name ++ strL "\n\n" ++ content

/-- The section chunk dict of chunk_wikipedia_sections (lines 103-116):
id = f"{base_url}_section_{section_idx}_{i}"; no total_chunks key. -/
def mkWikiSectionChunk (tokenLen : List Char → Nat) (doc : RawDoc)
    (sidx i : Nat) (name c : List Char) : Chunk :=
  { id := doc.url.getD [] ++ strL "_section_" ++ natChars sidx ++ strL "_" ++ natChars i,
    content := c,
    metadata :=
      [(.source, .s (doc.source.getD (strL "Wikipedia"))),
       (.url, .s (doc.url.getD [])),
       (.title, .s (doc.title.getD [])),
       (.chunk_index, .n i),
       (.type_, .s (strL "encyclopedia_section")),
       (.language, .s (strL "en")),
       (.section_, .s name),
       (.token_count, .n (tokenLen c))] }

/-- The `for i, chunk in enumerate(section_chunks)` loop of one section. -/
def buildWikiSectionChunks (tokenLen : List Char → Nat) (doc : RawDoc)
    (sidx : Nat) (name : List Char) : Nat → List (List Char) → List Chunk
  | _, [] => []
  | i, c :: rest =>
      mkWikiSectionChunk tokenLen doc sidx i name c ::
        buildWikiSectionChunks tokenLen doc sidx name (i + 1) rest

/-- The `for section_idx, section in enumerate(sections)` loop (lines
94-117); a raised splitter exception aborts the whole function, so the
loop runs in `Except`. -/
def buildWikiSectionsE (split : List Char → Except (List Char) (List (List Char)))
    (tokenLen : List Char → Nat) (doc : RawDoc) :
    Nat → List WikiSection → Except (List Char) (List Chunk)
  | _, [] => pure []
  | sidx, sec :: rest => do
      let here ←
        if (sec.content.getD []).isEmpty then pure []
        else do
          let cs ← split (sectionText doc (wikiSectionName sec sidx) (sec.content.getD []))
          pure (buildWikiSectionChunks tokenLen doc sidx (wikiSectionName sec sidx) 0 cs)
      let restChunks ← buildWikiSectionsE split tokenLen doc (sidx + 1) rest
      pure (here ++ restChunks)

/-- The try-block body of chunk_wikipedia_sections (lines 66-119): summary
chunks (when `wikipedia_doc.get('summary')` is truthy), then the section
chunks, in order. -/
def chunkWikiSectionsE (split : List Char → Except (List Char) (List (List Char)))
    (tokenLen : List Char → Nat) (doc : RawDoc) : Except (List Char) (List Chunk) := do
  let summaryChunks ←
    match doc.summary with
    | some s =>
        if s.isEmpty then pure []
        else do
          let cs ← split (summaryText doc s)
          pure (buildWikiSummary tokenLen doc 0 cs)
    | none => pure []
  let sectionChunks ← buildWikiSectionsE split tokenLen doc 0 doc.sections
  pure (summaryChunks ++ sectionChunks)

/-- F1TextChunker.chunk_wikipedia_sections (text_chunker.py lines 63-123):
the broad except returns [] when the splitter raises. -/
def chunk_wikipedia_sections (split : List Char → Except (List Char) (List (List Char)))
    (tokenLen : List Char → Nat) (doc : RawDoc) : List Chunk :=
  match chunkWikiSectionsE split tokenLen doc with
  | .ok cs => cs
  | .error _ => []

/-- F1TextChunker.process_scraped_data (text_chunker.py lines 125-145):
the Wikipedia-section path is taken when doc.get('source') == 'Wikipedia'
and doc.get('sections') is truthy (non-empty); the chunks of every
document are concatenated in order. -/
def process_scraped_data (split : List Char → Except (List Char) (List (List Char)))
    (tokenLen : List Char → Nat) (docs : List RawDoc) : List Chunk :=
  docs.foldl
    (fun acc doc =>
      acc ++
        (if doc.source = some (strL "Wikipedia") ∧ doc.sections ≠ [] then
          chunk_wikipedia_sections split tokenLen doc
        else
          chunk_document split tokenLen doc))
    []

end F1TextChunker

namespace LanguageHandler

/-- LanguageHandler.detect_language (language_detector.py lines 11-27).
`dOut` is the outcome of langdetect.detect(text): the detected code, or an
exception (the `.error` case, caught and mapped to 'en'). -/
def detect_language (dOut : Except (List Char) (List Char)) : List Char :=
  match dOut with
  | .error _ => strL "en"
  | .ok l =>
      if l = strL "hi" ∨ l = strL "hindi" then strL "hi"
      else if l = strL "en" ∨ l = strL "english" then strL "en"
      else strL "en"

/-- LanguageHandler.translate_to_english (lines 29-40). `tr` is the outcome
of self.translator.translate(text, src=source_lang, dest='en'); a raised
exception is caught and the original text returned. -/
def translate_to_english (tr : Except (List Char) (List Char))
    (text srcLang : List Char) : List Char :=
  if srcLang = strL "en" then text
  else
    match tr with
    | .ok r => r
    | .error _ => text

/-- LanguageHandler.translate_response (lines 42-53). `tr` is the outcome
of self.translator.translate(text, src='en', dest=target_lang). -/
def translate_response (tr : Except (List Char) (List Char))
    (text targetLang : List Char) : List Char :=
  if targetLang = strL "en" then text
  else
    match tr with
    | .ok r => r
    | .error _ => text

end LanguageHandler

namespace F1RAGChain

/-- rag_chain.py line 83: sentences = response.split('. '). -/
def sentSep : List Char := ['.', ' ']

/-- rag_chain.py lines 92-98: keywords_to_trim. -/
def keywordsToTrim : List (List Char) :=
  [strL "However, I can provide more",
   strL "Additionally,",
   strL "Furthermore,",
   strL "As per the provided context,",
   strL "Unfortunately, the context doesn\x27t provide"]

/-- One pass of the keyword loop of _post_process_response (lines 100-105):
if the keyword occurs, cut at its first occurrence, strip, and ensure a
trailing period. -/
def trimStep (s k : List Char) : List Char :=
  match splitFirst k s with
  | none => s
  | some (pre, _) =>
      if pyEndsWith (pyStrip pre) ['.'] then pyStrip pre else pyStrip pre ++ ['.']

/-- F1RAGChain._post_process_response (rag_chain.py lines 80-107): keep the
first three '. '-separated sentences when there are more than three, then
run the keyword trim loop. -/
def postProcessResponse (response : List Char) : List Char :=
  keywordsToTrim.foldl trimStep
    (if (pySplit sentSep response).length > 3 then
      List.intercalate sentSep ((pySplit sentSep response).take 3) ++ ['.']
    else response)

end F1RAGChain

/-- A response dict value: the /chat, /health and ingestion endpoint
responses hold strings, ints, lists of strings, and the sources list of
flat metadata dicts. -/
inductive RVal where
  | str (v : List Char)
  | num (n : Nat)
  | strList (vs : List (List Char))
  | srcEntries (es : List (List (PyKey × List Char)))
deriving DecidableEq, Repr

/-- Lookup of a key in a response dict (association list). -/
def rvalLookup (k : PyKey) : List (PyKey × RVal) → Option RVal
  | [] => none
  | p :: rest => if p.1 = k then some p.2 else rvalLookup k rest

/-- retrieved LangChain document metadata, read via `.get` with defaults. -/
def metaGet (k : PyKey) (m : List (PyKey × List Char)) (dflt : List Char) : List Char :=
  match m with
  | [] => dflt
  | p :: rest => if p.1 = k then p.2 else metaGet k rest dflt

/-- The qa_chain({"query": ...}) outcome: the generated answer and the
source_documents metadata list. -/
structure QAResult where
  result : List Char
  sourceDocs : List (List (PyKey × List Char))
deriving DecidableEq

/-- An observable side effect on the hosted vector index. -/
inductive VEffect where
  | retrieve (q : List Char)
  | upsert (ids : List (List Char))
deriving DecidableEq

namespace F1RAGChain

/-- rag_chain.py lines 176-179: the fixed English error answer. -/
def enErrorMessage : List Char :=
  strL "I\x27m sorry, I encountered an error while processing your question. Please try again."

/-- rag_chain.py lines 176-179: the fixed Hindi error answer. -/
def hiErrorMessage : List Char :=
  strL "क्षमा करें, आपके प्रश्न को संसाधित करते समय मुझे एक त्रुटि का सामना करना पड़ा। कृपया पुनः प्रयास करें।"

/-- The per-retrieved-document source entry (rag_chain.py lines 155-161). -/
def mkSourceEntry (m : List (PyKey × List Char)) : List (PyKey × List Char) :=
  [(.title, metaGet .title m (strL "Unknown")),
   (.source, metaGet .source m (strL "Unknown")),
   (.url, metaGet .url m []),
   (.section_, metaGet .section_ m []),
   (.type_, metaGet .type_ m (strL "text"))]

/-- F1RAGChain.query (rag_chain.py lines 108-192), with every external
call a parameter: `dOut` the langdetect outcome on the question, `trQ` the
translator outcome for the question, `qaOut` the qa_chain call (retrieval
plus LLM) on the query string it is given, `trR` the translator outcome for
the answer.  Returns the response dict together with the trace of vector
index effects (the qa_chain call performs one retrieval).  The broad
except catches a qa_chain exception and builds the fixed error response;
detect_language and the two translate wrappers catch internally and never
raise. -/
def query (dOut trQ trR : Except (List Char) (List Char))
    (qaOut : List Char → Except (List Char) QAResult)
    (question : List Char) : List (PyKey × RVal) × List VEffect :=
  match (if LanguageHandler.detect_language dOut = strL "en" then qaOut question
         else qaOut (LanguageHandler.translate_to_english trQ question
                      (LanguageHandler.detect_language dOut))) with
  | .ok r =>
      ([(.answer, .str (postProcessResponse
          (if LanguageHandler.detect_language dOut = strL "en" then r.result
           else LanguageHandler.translate_response trR r.result
                  (LanguageHandler.detect_language dOut)))),
        (.sources, .srcEntries ((r.sourceDocs.take 5).map mkSourceEntry)),
        (.language, .str (LanguageHandler.detect_language dOut)),
        (.original_question, .str question),
        (.english_question, .str (LanguageHandler.translate_to_english trQ question
                                   (LanguageHandler.detect_language dOut))),
        (.retrieved_docs, .num r.sourceDocs.length)],
       [.retrieve (if LanguageHandler.detect_language dOut = strL "en" then question
                   else LanguageHandler.translate_to_english trQ question
                          (LanguageHandler.detect_language dOut))])
  | .error e =>
      ([(.answer, .str (if LanguageHandler.detect_language dOut = strL "hi" then hiErrorMessage
                        else enErrorMessage)),
        (.sources, .srcEntries []),
        (.language, .str (LanguageHandler.detect_language dOut)),
        (.original_question, .str question),
        (.english_question, .str question),
        (.retrieved_docs, .num 0),
        (.error, .str e)],
       [.retrieve (if LanguageHandler.detect_language dOut = strL "en" then question
                   else LanguageHandler.translate_to_english trQ question
                          (LanguageHandler.detect_language dOut))])

end F1RAGChain

namespace OpenF1Client

/-- OpenF1Client.get_sessions (openf1_client.py lines 10-29): `resp` is the
outcome of the requests.get / raise_for_status / .json() sequence; a raised
exception (the `.error` case) is caught and [] returned. -/
def get_sessions {α : Type} (resp : Except (List Char) (List α)) : List α :=
  match resp with
  | .ok sessions => sessions
  | .error _ => []

/-- OpenF1Client.get_drivers (lines 31-48): same broad catch around the
HTTP call. -/
def get_drivers {α : Type} (resp : Except (List Char) (List α)) : List α :=
  match resp with
  | .ok drivers => drivers
  | .error _ => []

/-- OpenF1Client.get_lap_times (lines 50-68). -/
def get_lap_times {α : Type} (resp : Except (List Char) (List α)) : List α :=
  match resp with
  | .ok laps => laps
  | .error _ => []

/-- OpenF1Client.get_race_results (lines 70-85). -/
def get_race_results {α : Type} (resp : Except (List Char) (List α)) : List α :=
  match resp with
  | .ok results => results
  | .error _ => []

end OpenF1Client

/-- A LangChain document returned by similarity search: page_content and
metadata. -/
structure SearchDoc where
  page_content : List Char
  metadata : List (PyKey × List Char)

/-- The dict PineconeClient.search builds per result (pinecone_client.py
lines 89-94); the score type is abstract (a float of the SDK). -/
structure SearchResult (σ : Type) where
  content : List Char
  metadata : List (PyKey × List Char)
  score : σ

namespace PineconeClient

/-- PineconeClient.search (pinecone_client.py lines 83-100): `resp` is the
outcome of self.vector_store.similarity_search_with_score(query, k=k); a
raised exception is caught and [] returned. -/
def search {σ : Type} (resp : Except (List Char) (List (SearchDoc × σ))) :
    List (SearchResult σ) :=
  match resp with
  | .ok results =>
      results.map (fun p => { content := p.1.page_content, metadata := p.1.metadata, score := p.2 })
  | .error _ => []

/-- PineconeClient.upsert_chunks (pinecone_client.py lines 54-81): the
content/metadata/id lists are built from the chunks and passed to
self.vector_store.add_texts, whose outcome is `addOut`; True on success,
False when the wrapped call raises.  The second component is the effect on
the hosted index (the attempted upsert of those ids). -/
def upsert_chunks (addOut : Except (List Char) Unit) (chunks : List Chunk) :
    Bool × List VEffect :=
  match addOut with
  | .ok _ => (true, [.upsert (chunks.map Chunk.id)])
  | .error _ => (false, [.upsert (chunks.map Chunk.id)])

end PineconeClient

namespace App

/-- app.py line 69: the /chat 400 error body. -/
def chatBadRequestBody : List (PyKey × RVal) :=
  [(.error, .str (strL "Please provide a question about Formula 1"))]

/-- app.py lines 79-81: the /chat 500 error body. -/
def chatServerErrorBody : List (PyKey × RVal) :=
  [(.error, .str (strL "An error occurred while processing your question"))]

/-- The /chat handler (app.py lines 60-81).  `body` is
request.get_json(): `none` when the request has no JSON body (then
data.get raises and the broad except answers 500); a present message value
that is not a string makes .strip() raise, also answering 500; a missing
message key reads as '' and strips to empty.  A non-empty stripped
message is passed to rag_chain.query and the resulting dict returned with
status 200. -/
def chat (dOut trQ trR : Except (List Char) (List Char))
    (qaOut : List Char → Except (List Char) QAResult)
    (body : Option (List (PyKey × RVal))) : Nat × List (PyKey × RVal) :=
  match body with
  | none => (500, chatServerErrorBody)
  | some data =>
      match rvalLookup .message data with
      | some (.str s) =>
          if pyStrip s = [] then (400, chatBadRequestBody)
          else (200, (F1RAGChain.query dOut trQ trR qaOut (pyStrip s)).1)
      | some _ => (500, chatServerErrorBody)
      | none => (400, chatBadRequestBody)

/-- The public attribute names of the Python stdlib datetime module: the
classes date, datetime, time, timedelta, timezone, tzinfo and the
constants MINYEAR, MAXYEAR.  `now` is an attribute of the datetime.datetime
class, not of the module; app.py line 10 binds the name `datetime` to the
module. -/
def datetimeModuleAttrNames : List (List Char) :=
  [strL "date", strL "datetime", strL "time", strL "timedelta",
   strL "timezone", strL "tzinfo", strL "MINYEAR", strL "MAXYEAR"]

/-- Attribute lookup on the datetime module object. -/
def datetimeModuleHasAttr (a : List Char) : Bool :=
  datetimeModuleAttrNames.contains a

/-- The /health handler (app.py lines 84-97).  The try block evaluates
datetime.now(): an attribute lookup of `now` on the datetime module, which
raises AttributeError, so the except branch answers 500 with status
unhealthy.  The (unreachable) success branch would answer 200 with status
healthy; its timestamp value is left empty because no execution produces
one. -/
def health : Nat × List (PyKey × RVal) :=
  if datetimeModuleHasAttr (strL "now") then
    (200, [(.status, .str (strL "healthy")),
           (.supported_languages, .strList Config.SUPPORTED_LANGUAGES),
           (.timestamp, .str [])])
  else
    (500, [(.status, .str (strL "unhealthy")),
           (.error, .str (strL "module \x27datetime\x27 has no attribute \x27now\x27"))])

/-- The /scrape-and-update handler (app.py lines 100-177).  The scraping
and format-conversion steps (lines 110-151) are all external calls and
glue building all_scraped_data; their combined outcome is `scrapeOut` (a
raised exception anywhere in them is the `.error` case, answered 500 by
the broad except).  The scraped documents are chunked with
process_scraped_data and written to the index only through
PineconeClient.upsert_chunks. -/
def scrape_and_update (split : List Char → Except (List Char) (List (List Char)))
    (tokenLen : List Char → Nat)
    (scrapeOut : Except (List Char) (List RawDoc))
    (addOut : Except (List Char) Unit) :
    (Nat × List (PyKey × RVal)) × List VEffect :=
  match scrapeOut with
  | .error e =>
      ((500, [(.error, .str (strL "Scraping failed: " ++ e))]), [])
  | .ok docs =>
      if (PineconeClient.upsert_chunks addOut
            (F1TextChunker.process_scraped_data split tokenLen docs)).1 then
        ((200, [(.message, .str (strL "Successfully updated F1 knowledge base")),
                (.scraped_documents, .num docs.length),
                (.created_chunks,
                 .num (F1TextChunker.process_scraped_data split tokenLen docs).length),
                (.sources, .strList [strL "Wikipedia", strL "F1 Official", strL "OpenF1 API"])]),
         (PineconeClient.upsert_chunks addOut
            (F1TextChunker.process_scraped_data split tokenLen docs)).2)
      else
        ((500, [(.error, .str (strL "Failed to update vector store"))]),
         (PineconeClient.upsert_chunks addOut
            (F1TextChunker.process_scraped_data split tokenLen docs)).2)

end App

/-! ## Supporting lemmas -/

lemma splitFirst_sound (k : List Char) :
    ∀ t pre post, splitFirst k t = some (pre, post) → t = pre ++ k ++ post := by
  intro t
  induction t with
  | nil =>
      intro pre post h
      by_cases hk : k.isEmpty
      · simp only [splitFirst, if_pos hk] at h
        cases h
        simp [List.isEmpty_iff.mp hk]
      · simp only [splitFirst, if_neg hk] at h
        exact Option.noConfusion h
  | cons c rest ih =>
      intro pre post h
      by_cases hp : k.isPrefixOf (c :: rest)
      · simp only [splitFirst, if_pos hp] at h
        cases h
        obtain ⟨t2, ht2⟩ := List.isPrefixOf_iff_prefix.mp hp
        rw [← ht2]
        simp [List.drop_left]
      · simp only [splitFirst, if_neg hp] at h
        cases hsf : splitFirst k rest with
        | none =>
            rw [hsf] at h
            exact Option.noConfusion h
        | some pq =>
            obtain ⟨p, q⟩ := pq
            rw [hsf] at h
            simp only [Option.some.injEq, Prod.mk.injEq] at h
            obtain ⟨h1, h2⟩ := h
            subst h1
            subst h2
            have hrest := ih p q hsf
            simp [hrest]

lemma trimStep_of_none {s k : List Char} (h : splitFirst k s = none) :
    F1RAGChain.trimStep s k = s := by
  simp [F1RAGChain.trimStep, h]

lemma foldl_trimStep_id {s : List Char} :
    ∀ ks : List (List Char), (∀ k ∈ ks, splitFirst k s = none) →
      ks.foldl F1RAGChain.trimStep s = s := by
  intro ks
  induction ks with
  | nil => intro _; rfl
  | cons k rest ih =>
      intro h
      have hk : F1RAGChain.trimStep s k = s := trimStep_of_none (h k (by simp))
      simp only [List.foldl, hk]
      exact ih (fun k2 hk2 => h k2 (by simp [hk2]))

namespace F1TextChunker

lemma buildChunkDocs_get? (tokenLen : List Char → Nat) (doc : RawDoc) (total : Nat) :
    ∀ (cs : List (List Char)) (i j : Nat),
      (buildChunkDocs tokenLen doc total i cs).get? j =
        (cs.get? j).map (mkChunk tokenLen doc total (i + j)) := by
  intro cs
  induction cs with
  | nil => intro i j; simp [buildChunkDocs]
  | cons c rest ih =>
      intro i j
      cases j with
      | zero => simp [buildChunkDocs]
      | succ j2 =>
          have harith : i + 1 + j2 = i + (j2 + 1) := by omega
          simp only [buildChunkDocs, List.get?]
          rw [ih (i + 1) j2, harith]

lemma buildChunkDocs_length (tokenLen : List Char → Nat) (doc : RawDoc) (total : Nat) :
    ∀ (cs : List (List Char)) (i : Nat),
      (buildChunkDocs tokenLen doc total i cs).length = cs.length := by
  intro cs
  induction cs with
  | nil => intro i; rfl
  | cons c rest ih => intro i; simp [buildChunkDocs, ih]

lemma mem_buildChunkDocs (tokenLen : List Char → Nat) (doc : RawDoc) (total : Nat) :
    ∀ (cs : List (List Char)) (i : Nat) (ch : Chunk),
      ch ∈ buildChunkDocs tokenLen doc total i cs →
        ∃ j c, c ∈ cs ∧ ch = mkChunk tokenLen doc total j c := by
  intro cs
  induction cs with
  | nil => intro i ch h; cases h
  | cons c rest ih =>
      intro i ch h
      cases h with
      | head => exact ⟨i, c, by simp⟩
      | tail _ h2 =>
          obtain ⟨j, c2, hc2, he⟩ := ih (i + 1) ch h2
          exact ⟨j, c2, by simp [hc2], he⟩

lemma buildWikiSummary_get? (tokenLen : List Char → Nat) (doc : RawDoc) :
    ∀ (cs : List (List Char)) (i j : Nat),
      (buildWikiSummary tokenLen doc i cs).get? j =
        (cs.get? j).map (fun c => mkWikiSummaryChunk tokenLen doc (i + j) c) := by
  intro cs
  induction cs with
  | nil => intro i j; simp [buildWikiSummary]
  | cons c rest ih =>
      intro i j
      cases j with
      | zero => simp [buildWikiSummary]
      | succ j2 =>
          have harith : i + 1 + j2 = i + (j2 + 1) := by omega
          simp only [buildWikiSummary, List.get?]
          rw [ih (i + 1) j2, harith]

lemma buildWikiSectionChunks_get? (tokenLen : List Char → Nat) (doc : RawDoc)
    (sidx : Nat) (name : List Char) :
    ∀ (cs : List (List Char)) (i j : Nat),
      (buildWikiSectionChunks tokenLen doc sidx name i cs).get? j =
        (cs.get? j).map (fun c => mkWikiSectionChunk tokenLen doc sidx (i + j) name c) := by
  intro cs
  induction cs with
  | nil => intro i j; simp [buildWikiSectionChunks]
  | cons c rest ih =>
      intro i j
      cases j with
      | zero => simp [buildWikiSectionChunks]
      | succ j2 =>
          have harith : i + 1 + j2 = i + (j2 + 1) := by omega
          simp only [buildWikiSectionChunks, List.get?]
          rw [ih (i + 1) j2, harith]

lemma mem_buildWikiSummary (tokenLen : List Char → Nat) (doc : RawDoc) :
    ∀ (cs : List (List Char)) (i : Nat) (ch : Chunk),
      ch ∈ buildWikiSummary tokenLen doc i cs →
        ∃ j c, ch = mkWikiSummaryChunk tokenLen doc j c := by
  intro cs
  induction cs with
  | nil => intro i ch h; cases h
  | cons c rest ih =>
      intro i ch h
      cases h with
      | head => exact ⟨i, c, rfl⟩
      | tail _ h2 => exact ih (i + 1) ch h2

lemma mem_buildWikiSectionChunks (tokenLen : List Char → Nat) (doc : RawDoc)
    (sidx : Nat) (name : List Char) :
    ∀ (cs : List (List Char)) (i : Nat) (ch : Chunk),
      ch ∈ buildWikiSectionChunks tokenLen doc sidx name i cs →
        ∃ j c, ch = mkWikiSectionChunk tokenLen doc sidx j name c := by
  intro cs
  induction cs with
  | nil => intro i ch h; cases h
  | cons c rest ih =>
      intro i ch h
      cases h with
      | head => exact ⟨i, c, rfl⟩
      | tail _ h2 => exact ih (i + 1) ch h2

lemma mem_buildWikiSectionsE (split : List Char → Except (List Char) (List (List Char)))
    (tokenLen : List Char → Nat) (doc : RawDoc) :
    ∀ (secs : List WikiSection) (sidx : Nat) (out : List Chunk) (ch : Chunk),
      buildWikiSectionsE split tokenLen doc sidx secs = .ok out → ch ∈ out →
        ∃ k j nm c, ch = mkWikiSectionChunk tokenLen doc k j nm c := by
  intro secs
  induction secs with
  | nil =>
      intro sidx out ch h hm
      simp only [buildWikiSectionsE] at h
      cases h
      cases hm
  | cons sec rest ih =>
      intro sidx out ch h hm
      simp only [buildWikiSectionsE, bind, Except.bind] at h
      by_cases hc : (sec.content.getD []).isEmpty
      · rw [if_pos hc] at h
        simp only [pure, Except.pure] at h
        cases hrest : buildWikiSectionsE split tokenLen doc (sidx + 1) rest with
        | error e => rw [hrest] at h; cases h
        | ok outRest =>
            rw [hrest] at h
            simp only [pure, Except.pure] at h
            cases h
            simp only [List.nil_append] at hm
            exact ih (sidx + 1) outRest ch hrest hm
      · rw [if_neg hc] at h
        cases hsp : split (sectionText doc (wikiSectionName sec sidx) (sec.content.getD [])) with
        | error e => rw [hsp] at h; cases h
        | ok cs =>
            rw [hsp] at h
            simp only [pure, Except.pure] at h
            cases hrest : buildWikiSectionsE split tokenLen doc (sidx + 1) rest with
            | error e => rw [hrest] at h; cases h
            | ok outRest =>
                rw [hrest] at h
                simp only [pure, Except.pure] at h
                cases h
                rcases List.mem_append.mp hm with hm1 | hm2
                · obtain ⟨j, c, he⟩ :=
                    mem_buildWikiSectionChunks tokenLen doc sidx (wikiSectionName sec sidx) cs 0 ch hm1
                  exact ⟨sidx, j, wikiSectionName sec sidx, c, he⟩
                · exact ih (sidx + 1) outRest ch hrest hm2

lemma mem_chunk_wikipedia_sections
    (split : List Char → Except (List Char) (List (List Char)))
    (tokenLen : List Char → Nat) (doc : RawDoc) (ch : Chunk)
    (hm : ch ∈ chunk_wikipedia_sections split tokenLen doc) :
    (∃ j c, ch = mkWikiSummaryChunk tokenLen doc j c) ∨
      (∃ k j nm c, ch = mkWikiSectionChunk tokenLen doc k j nm c) := by
  unfold chunk_wikipedia_sections at hm
  cases hms : chunkWikiSectionsE split tokenLen doc with
  | error e => rw [hms] at hm; cases hm
  | ok out =>
      rw [hms] at hm
      unfold chunkWikiSectionsE at hms
      simp only [bind, Except.bind] at hms
      have finish :
          ∀ (summaryChunks outSec : List Chunk),
            out = summaryChunks ++ outSec →
            (∀ ch2 ∈ summaryChunks, ∃ j c, ch2 = mkWikiSummaryChunk tokenLen doc j c) →
            buildWikiSectionsE split tokenLen doc 0 doc.sections = .ok outSec →
            (∃ j c, ch = mkWikiSummaryChunk tokenLen doc j c) ∨
              (∃ k j nm c, ch = mkWikiSectionChunk tokenLen doc k j nm c) := by
        intro summaryChunks outSec hout hsum hsec
        subst hout
        rcases List.mem_append.mp hm with h1 | h2
        · exact Or.inl (hsum ch h1)
        · exact Or.inr
            (mem_buildWikiSectionsE split tokenLen doc doc.sections 0 outSec ch hsec h2)
      cases hsummary : doc.summary with
      | none =>
          rw [hsummary] at hms
          simp only [pure, Except.pure] at hms
          cases hsec : buildWikiSectionsE split tokenLen doc 0 doc.sections with
          | error e => rw [hsec] at hms; exact Except.noConfusion hms
          | ok outSec =>
              rw [hsec] at hms
              simp only [Except.ok.injEq] at hms
              exact finish [] outSec (by simp [hms.symm]) (by intro ch2 h2; cases h2) hsec
      | some s =>
          rw [hsummary] at hms
          simp only [pure, Except.pure] at hms
          by_cases hse : s.isEmpty
          · rw [if_pos hse] at hms
            cases hsec : buildWikiSectionsE split tokenLen doc 0 doc.sections with
            | error e => rw [hsec] at hms; exact Except.noConfusion hms
            | ok outSec =>
                rw [hsec] at hms
                simp only [Except.ok.injEq] at hms
                exact finish [] outSec (by simp [hms.symm]) (by intro ch2 h2; cases h2) hsec
          · rw [if_neg hse] at hms
            cases hsp : split (summaryText doc s) with
            | error e => rw [hsp] at hms; exact Except.noConfusion hms
            | ok cs =>
                rw [hsp] at hms
                simp only [pure, Except.pure] at hms
                cases hsec : buildWikiSectionsE split tokenLen doc 0 doc.sections with
                | error e => rw [hsec] at hms; exact Except.noConfusion hms
                | ok outSec =>
                    rw [hsec] at hms
                    simp only [Except.ok.injEq] at hms
                    refine finish (buildWikiSummary tokenLen doc 0 cs) outSec hms.symm ?_ hsec
                    intro ch2 h2
                    exact mem_buildWikiSummary tokenLen doc cs 0 ch2 h2

end F1TextChunker

/-! ## Claim theorems -/

/-- C9: every request to /health takes the except branch, because the
module-level name datetime is the datetime module and the module has no
attribute now; the endpoint always answers 500 with status unhealthy and
never returns the healthy response. -/
theorem health_always_unhealthy :
    App.health = (500, [(.status, .str (strL "unhealthy")),
                        (.error, .str (strL "module \x27datetime\x27 has no attribute \x27now\x27"))])
  ∧ rvalLookup .status App.health.2 = some (.str (strL "unhealthy"))
  ∧ App.health.1 ≠ 200 := by
  decide

/-- C6: detect_language always lands in the supported set {en, hi}: it is
hi exactly when the underlying detector reports Hindi (langdetect result
hi or hindi) and en in every other case, unsupported detections and raised
exceptions included. -/
theorem detect_language_supported_set (d : Except (List Char) (List Char)) :
    (LanguageHandler.detect_language d = strL "en" ∨ LanguageHandler.detect_language d = strL "hi")
  ∧ (LanguageHandler.detect_language d = strL "hi" ↔
      (d = .ok (strL "hi") ∨ d = .ok (strL "hindi")))
  ∧ (∀ e, d = .error e → LanguageHandler.detect_language d = strL "en")
  ∧ (∀ l, d = .ok l → l ≠ strL "hi" → l ≠ strL "hindi" →
      LanguageHandler.detect_language d = strL "en") := by
  cases d with
  | error e =>
      refine ⟨Or.inl rfl, ?_, ?_, ?_⟩
      · constructor
        · intro hc
          have h0 : LanguageHandler.detect_language (.error e) = strL "en" := rfl
          rw [h0] at hc
          exact absurd hc (by decide)
        · rintro (h | h) <;> exact nomatch h
      · intro _ _
        rfl
      · intro l h
        exact nomatch h
  | ok l =>
      by_cases h1 : l = strL "hi" ∨ l = strL "hindi"
      · have hd : LanguageHandler.detect_language (.ok l) = strL "hi" := by
          simp [LanguageHandler.detect_language, h1]
        refine ⟨Or.inr hd, ?_, ?_, ?_⟩
        · constructor
          · intro _
            rcases h1 with h | h
            · exact Or.inl (by rw [h])
            · exact Or.inr (by rw [h])
          · intro _
            exact hd
        · intro e he
          exact nomatch he
        · intro l2 hl2 hne1 hne2
          cases hl2
          rcases h1 with h | h
          · exact absurd h hne1
          · exact absurd h hne2
      · have hd : LanguageHandler.detect_language (.ok l) = strL "en" := by
          simp [LanguageHandler.detect_language, h1]
        refine ⟨Or.inl hd, ?_, ?_, ?_⟩
        · constructor
          · intro hc
            rw [hd] at hc
            exact absurd hc (by decide)
          · rintro (h | h)
            · cases h
              exact absurd (Or.inl rfl) h1
            · cases h
              exact absurd (Or.inr rfl) h1
        · intro e he
          exact nomatch he
        · intro l2 hl2 hne1 hne2
          cases hl2
          exact hd

/-- C6 witness: a detector exception and an unsupported detection both map
to en, and a Hindi detection maps to hi. -/
theorem detect_language_supported_set_witness :
    LanguageHandler.detect_language (.error (strL "boom")) = strL "en"
  ∧ LanguageHandler.detect_language (.ok (strL "fr")) = strL "en"
  ∧ LanguageHandler.detect_language (.ok (strL "hindi")) = strL "hi" :=
  ⟨(detect_language_supported_set (.error (strL "boom"))).2.2.1 (strL "boom") rfl,
   (detect_language_supported_set (.ok (strL "fr"))).2.2.2 (strL "fr") rfl
     (by decide) (by decide),
   (detect_language_supported_set (.ok (strL "hindi"))).2.1.mpr (Or.inr rfl)⟩

/-- C7: translation is the identity on English: translate_to_english and
translate_response with language en return the text unchanged whatever the
translator outcome, and a question detected as English reaches the QA
chain unchanged, its answer post-processed but not translated. -/
theorem translation_identity_on_english
    (trQ trR dOut : Except (List Char) (List Char)) (text q : List Char)
    (qaOut : List Char → Except (List Char) QAResult) (r : QAResult) :
    LanguageHandler.translate_to_english trQ text (strL "en") = text
  ∧ LanguageHandler.translate_response trR text (strL "en") = text
  ∧ (LanguageHandler.detect_language dOut = strL "en" → qaOut q = .ok r →
      rvalLookup .answer (F1RAGChain.query dOut trQ trR qaOut q).1
          = some (.str (F1RAGChain.postProcessResponse r.result))
        ∧ rvalLookup .english_question (F1RAGChain.query dOut trQ trR qaOut q).1
          = some (.str q)) := by
  refine ⟨by simp [LanguageHandler.translate_to_english],
          by simp [LanguageHandler.translate_response], ?_⟩
  intro hd hq
  have hq2 : (if LanguageHandler.detect_language dOut = strL "en" then qaOut q
              else qaOut (LanguageHandler.translate_to_english trQ q
                           (LanguageHandler.detect_language dOut))) = .ok r := by
    rw [hd]
    simpa using hq
  constructor
  · unfold F1RAGChain.query
    rw [hq2]
    simp [rvalLookup, hd]
  · unfold F1RAGChain.query
    rw [hq2]
    simp [rvalLookup, hd, LanguageHandler.translate_to_english]

/-- C7 witness: both translate wrappers at language en on a concrete text,
and the query answer for an English question with a concrete QA outcome. -/
theorem translation_identity_on_english_witness :
    LanguageHandler.translate_to_english (.ok (strL "X")) (strL "hello") (strL "en") = strL "hello"
  ∧ rvalLookup .answer
      ((F1RAGChain.query (.ok (strL "en")) (.ok (strL "X")) (.ok (strL "Y"))
         (fun _ => .ok ⟨strL "Max.", []⟩) (strL "who")).1)
      = some (.str (F1RAGChain.postProcessResponse (strL "Max."))) :=
  ⟨(translation_identity_on_english (.ok (strL "X")) (.ok (strL "Y")) (.ok (strL "en"))
      (strL "hello") (strL "who") (fun _ => .ok ⟨strL "Max.", []⟩) ⟨strL "Max.", []⟩).1,
   ((translation_identity_on_english (.ok (strL "X")) (.ok (strL "Y")) (.ok (strL "en"))
      (strL "hello") (strL "who") (fun _ => .ok ⟨strL "Max.", []⟩) ⟨strL "Max.", []⟩).2.2
      (by decide) rfl).1⟩

/-- C3: every wrapper around an external call catches a raised exception
and returns the empty or default value, and passes the normal result
through otherwise: the OpenF1 getters and PineconeClient.search return [],
upsert_chunks returns False, chunk_document returns []. -/
theorem wrapped_calls_never_propagate {α σ : Type} (e : List Char) (xs : List α)
    (rs : List (SearchDoc × σ)) (chunks : List Chunk) (tokenLen : List Char → Nat)
    (doc : RawDoc) (split : List Char → Except (List Char) (List (List Char))) :
    (OpenF1Client.get_sessions (Except.error e : Except (List Char) (List α)) = []
      ∧ OpenF1Client.get_sessions (.ok xs) = xs)
  ∧ (OpenF1Client.get_drivers (Except.error e : Except (List Char) (List α)) = []
      ∧ OpenF1Client.get_drivers (.ok xs) = xs)
  ∧ (OpenF1Client.get_lap_times (Except.error e : Except (List Char) (List α)) = []
      ∧ OpenF1Client.get_lap_times (.ok xs) = xs)
  ∧ (OpenF1Client.get_race_results (Except.error e : Except (List Char) (List α)) = []
      ∧ OpenF1Client.get_race_results (.ok xs) = xs)
  ∧ (PineconeClient.search (Except.error e : Except (List Char) (List (SearchDoc × σ))) = []
      ∧ PineconeClient.search (.ok rs)
          = rs.map (fun p => { content := p.1.page_content, metadata := p.1.metadata,
                               score := p.2 }))
  ∧ ((PineconeClient.upsert_chunks (.error e) chunks).1 = false
      ∧ (PineconeClient.upsert_chunks (.ok ()) chunks).1 = true)
  ∧ (split (F1TextChunker.fullText doc) = .error e →
      F1TextChunker.chunk_document split tokenLen doc = [])
  ∧ (∀ cs, split (F1TextChunker.fullText doc) = .ok cs →
      F1TextChunker.chunk_document split tokenLen doc =
        F1TextChunker.buildChunkDocs tokenLen doc cs.length 0 cs) := by
  refine ⟨⟨rfl, rfl⟩, ⟨rfl, rfl⟩, ⟨rfl, rfl⟩, ⟨rfl, rfl⟩, ⟨rfl, rfl⟩, ⟨rfl, rfl⟩, ?_, ?_⟩
  · intro h
    unfold F1TextChunker.chunk_document
    rw [h]
  · intro cs h
    unfold F1TextChunker.chunk_document
    rw [h]

/-- C3 witness: a raised splitter exception makes chunk_document return []
and a failing add_texts makes upsert_chunks return False, at concrete
inputs. -/
theorem wrapped_calls_never_propagate_witness :
    F1TextChunker.chunk_document (fun _ => .error (strL "boom")) List.length {} = []
  ∧ (PineconeClient.upsert_chunks (.error (strL "boom")) []).1 = false :=
  ⟨(@wrapped_calls_never_propagate Nat Nat (strL "boom") [] [] [] List.length {}
      (fun _ => .error (strL "boom"))).2.2.2.2.2.2.1 rfl,
   (@wrapped_calls_never_propagate Nat Nat (strL "boom") [] [] [] List.length {}
      (fun _ => .error (strL "boom"))).2.2.2.2.2.1.1⟩

lemma upsert_chunks_effects (addOut : Except (List Char) Unit) (cs : List Chunk) :
    (PineconeClient.upsert_chunks addOut cs).2 = [.upsert (cs.map Chunk.id)] := by
  cases addOut <;> rfl

lemma scrape_and_update_effects (split : List Char → Except (List Char) (List (List Char)))
    (tokenLen : List Char → Nat) (docs : List RawDoc) (addOut : Except (List Char) Unit) :
    (App.scrape_and_update split tokenLen (.ok docs) addOut).2 =
      (PineconeClient.upsert_chunks addOut
        (F1TextChunker.process_scraped_data split tokenLen docs)).2 := by
  cases addOut with
  | ok u => simp [App.scrape_and_update, PineconeClient.upsert_chunks]
  | error e => simp [App.scrape_and_update, PineconeClient.upsert_chunks]

/-- C5: _post_process_response is a pure truncate-and-trim: a response of
at most three '. '-separated sentences containing none of the five trim
keywords is returned unchanged; a response of more than three sentences is
first cut to the first three joined by '. ' plus '.', then keyword
trimmed; each keyword trim cuts everything from the first keyword
occurrence onward and ensures a trailing period; and query applies it to
every successful answer. -/
theorem post_process_response_spec (s : List Char) :
    (((pySplit F1RAGChain.sentSep s).length ≤ 3 ∧
        ∀ k ∈ F1RAGChain.keywordsToTrim, pyContains k s = false) →
      F1RAGChain.postProcessResponse s = s)
  ∧ ((pySplit F1RAGChain.sentSep s).length > 3 →
      F1RAGChain.postProcessResponse s =
        F1RAGChain.keywordsToTrim.foldl F1RAGChain.trimStep
          (List.intercalate F1RAGChain.sentSep ((pySplit F1RAGChain.sentSep s).take 3) ++ ['.']))
  ∧ (∀ t k, pyContains k t = true →
      ∃ pre post, t = pre ++ k ++ post ∧
        F1RAGChain.trimStep t k =
          (if pyEndsWith (pyStrip pre) ['.'] then pyStrip pre else pyStrip pre ++ ['.']))
  ∧ (∀ (dOut trQ trR : Except (List Char) (List Char))
        (qaOut : List Char → Except (List Char) QAResult) (r : QAResult),
      (if LanguageHandler.detect_language dOut = strL "en" then qaOut s
       else qaOut (LanguageHandler.translate_to_english trQ s
                    (LanguageHandler.detect_language dOut))) = .ok r →
      ∃ t, rvalLookup .answer (F1RAGChain.query dOut trQ trR qaOut s).1
        = some (.str (F1RAGChain.postProcessResponse t))) := by
  refine ⟨?_, ?_, ?_, ?_⟩
  · rintro ⟨h1, h2⟩
    unfold F1RAGChain.postProcessResponse
    rw [if_neg (by omega)]
    apply foldl_trimStep_id
    intro k hk
    have hkc := h2 k hk
    cases hsf : splitFirst k s with
    | none => rfl
    | some pq =>
        rw [pyContains, hsf] at hkc
        exact absurd hkc (by simp)
  · intro h
    unfold F1RAGChain.postProcessResponse
    rw [if_pos h]
  · intro t k hc
    cases hsf : splitFirst k t with
    | none => rw [pyContains, hsf] at hc; exact absurd hc (by simp)
    | some pq =>
        obtain ⟨pre, post⟩ := pq
        refine ⟨pre, post, splitFirst_sound k t pre post hsf, ?_⟩
        simp [F1RAGChain.trimStep, hsf]
  · intro dOut trQ trR qaOut r h
    unfold F1RAGChain.query
    rw [h]
    exact ⟨(if LanguageHandler.detect_language dOut = strL "en" then r.result
            else LanguageHandler.translate_response trR r.result
                   (LanguageHandler.detect_language dOut)),
           by simp [rvalLookup]⟩

/-- C5 witness: a short keyword-free answer is returned unchanged. -/
theorem post_process_response_spec_witness :
    F1RAGChain.postProcessResponse (strL "Verstappen won") = strL "Verstappen won" :=
  (post_process_response_spec (strL "Verstappen won")).1 ⟨by decide, by decide⟩

/-- C4: /chat answers 200 with answer, sources and language keys for a
JSON body whose message strips non-empty; a missing or empty message is a
400 error; and a failing QA chain still yields a query response whose
answer is the fixed error string of the detected language, with empty
sources and zero retrieved_docs. -/
theorem chat_endpoint_contract
    (dOut trQ trR : Except (List Char) (List Char))
    (qaOut : List Char → Except (List Char) QAResult) :
    (∀ data s, rvalLookup .message data = some (.str s) → pyStrip s ≠ [] →
      (App.chat dOut trQ trR qaOut (some data)).1 = 200
      ∧ PyKey.answer ∈ (App.chat dOut trQ trR qaOut (some data)).2.map Prod.fst
      ∧ PyKey.sources ∈ (App.chat dOut trQ trR qaOut (some data)).2.map Prod.fst
      ∧ PyKey.language ∈ (App.chat dOut trQ trR qaOut (some data)).2.map Prod.fst)
  ∧ (∀ data s, rvalLookup .message data = some (.str s) → pyStrip s = [] →
      App.chat dOut trQ trR qaOut (some data) = (400, App.chatBadRequestBody))
  ∧ (∀ data, rvalLookup .message data = none →
      App.chat dOut trQ trR qaOut (some data) = (400, App.chatBadRequestBody))
  ∧ (∀ q e, (if LanguageHandler.detect_language dOut = strL "en" then qaOut q
             else qaOut (LanguageHandler.translate_to_english trQ q
                          (LanguageHandler.detect_language dOut))) = .error e →
      rvalLookup .answer (F1RAGChain.query dOut trQ trR qaOut q).1
        = some (.str (if LanguageHandler.detect_language dOut = strL "hi"
                      then F1RAGChain.hiErrorMessage else F1RAGChain.enErrorMessage))
      ∧ rvalLookup .sources (F1RAGChain.query dOut trQ trR qaOut q).1
          = some (.srcEntries [])
      ∧ rvalLookup .retrieved_docs (F1RAGChain.query dOut trQ trR qaOut q).1
          = some (.num 0)) := by
  refine ⟨?_, ?_, ?_, ?_⟩
  · intro data s hm hs
    simp only [App.chat, hm]
    rw [if_neg hs]
    cases hqa : (if LanguageHandler.detect_language dOut = strL "en" then qaOut (pyStrip s)
                 else qaOut (LanguageHandler.translate_to_english trQ (pyStrip s)
                              (LanguageHandler.detect_language dOut))) with
    | ok r =>
        unfold F1RAGChain.query
        rw [hqa]
        exact ⟨rfl, by simp, by simp, by simp⟩
    | error e =>
        unfold F1RAGChain.query
        rw [hqa]
        exact ⟨rfl, by simp, by simp, by simp⟩
  · intro data s hm hs
    simp only [App.chat, hm]
    rw [if_pos hs]
  · intro data hm
    simp only [App.chat, hm]
  · intro q e h
    unfold F1RAGChain.query
    rw [h]
    refine ⟨by simp [rvalLookup], by simp [rvalLookup], by simp [rvalLookup]⟩

/-- C4 witness: a request whose message strips non-empty answers 200, and
an empty message answers 400, at concrete inputs. -/
theorem chat_endpoint_contract_witness :
    (App.chat (.ok (strL "en")) (.ok []) (.ok [])
       (fun _ => .ok ⟨strL "A.", []⟩)
       (some [(PyKey.message, .str (strL " who won "))])).1 = 200
  ∧ App.chat (.ok (strL "en")) (.ok []) (.ok [])
       (fun _ => .ok ⟨strL "A.", []⟩)
       (some [(PyKey.message, .str (strL "  "))]) = (400, App.chatBadRequestBody) :=
  ⟨((chat_endpoint_contract (.ok (strL "en")) (.ok []) (.ok [])
      (fun _ => .ok ⟨strL "A.", []⟩)).1
      [(PyKey.message, .str (strL " who won "))] (strL " who won ") rfl (by decide)).1,
   (chat_endpoint_contract (.ok (strL "en")) (.ok []) (.ok [])
      (fun _ => .ok ⟨strL "A.", []⟩)).2.1
      [(PyKey.message, .str (strL "  "))] (strL "  ") rfl (by decide)⟩

/-- C10: a successful query lists at most five sources, each an entry with
exactly the keys title, source, url, section and type, and reports
retrieved_docs as the full number of retrieved documents. -/
theorem query_sources_shape (dOut trQ trR : Except (List Char) (List Char))
    (qaOut : List Char → Except (List Char) QAResult) (q : List Char) (r : QAResult)
    (h : (if LanguageHandler.detect_language dOut = strL "en" then qaOut q
          else qaOut (LanguageHandler.translate_to_english trQ q
                       (LanguageHandler.detect_language dOut))) = .ok r) :
    rvalLookup .sources (F1RAGChain.query dOut trQ trR qaOut q).1
      = some (.srcEntries ((r.sourceDocs.take 5).map F1RAGChain.mkSourceEntry))
  ∧ ((r.sourceDocs.take 5).map F1RAGChain.mkSourceEntry).length ≤ 5
  ∧ (∀ entry ∈ (r.sourceDocs.take 5).map F1RAGChain.mkSourceEntry,
      entry.map Prod.fst = [PyKey.title, PyKey.source, PyKey.url, PyKey.section_, PyKey.type_])
  ∧ rvalLookup .retrieved_docs (F1RAGChain.query dOut trQ trR qaOut q).1
      = some (.num r.sourceDocs.length) := by
  refine ⟨?_, ?_, ?_, ?_⟩
  · unfold F1RAGChain.query
    rw [h]
    simp [rvalLookup]
  · simp only [List.length_map, List.length_take]
    omega
  · intro entry hentry
    obtain ⟨m, _, he⟩ := List.mem_map.mp hentry
    rw [← he]
    simp [F1RAGChain.mkSourceEntry]
  · unfold F1RAGChain.query
    rw [h]
    simp [rvalLookup]

/-- C10 witness: a concrete successful query with one retrieved document
reports retrieved_docs 1. -/
theorem query_sources_shape_witness :
    rvalLookup .retrieved_docs
      ((F1RAGChain.query (.ok (strL "en")) (.ok []) (.ok [])
         (fun _ => .ok ⟨strL "A.", [[(PyKey.title, strL "T")]]⟩) (strL "q")).1)
      = some (.num 1) :=
  (query_sources_shape (.ok (strL "en")) (.ok []) (.ok [])
     (fun _ => .ok ⟨strL "A.", [[(PyKey.title, strL "T")]]⟩) (strL "q")
     ⟨strL "A.", [[(PyKey.title, strL "T")]]⟩ rfl).2.2.2

/-- C8: the serving path is read-only with respect to the vector index:
every query run performs exactly one retrieval and never an upsert, while
every index effect of the /scrape-and-update handler is the single upsert
performed through PineconeClient.upsert_chunks. -/
theorem serving_path_read_only
    (dOut trQ trR : Except (List Char) (List Char))
    (qaOut : List Char → Except (List Char) QAResult) (q : List Char)
    (split : List Char → Except (List Char) (List (List Char)))
    (tokenLen : List Char → Nat)
    (scrapeOut : Except (List Char) (List RawDoc))
    (addOut : Except (List Char) Unit) :
    (∀ ids, VEffect.upsert ids ∉ (F1RAGChain.query dOut trQ trR qaOut q).2)
  ∧ (∃ s, (F1RAGChain.query dOut trQ trR qaOut q).2 = [VEffect.retrieve s])
  ∧ (∀ eff ∈ (App.scrape_and_update split tokenLen scrapeOut addOut).2,
      ∃ docs, scrapeOut = .ok docs ∧
        eff = VEffect.upsert
          ((F1TextChunker.process_scraped_data split tokenLen docs).map Chunk.id) ∧
        eff ∈ (PineconeClient.upsert_chunks addOut
                (F1TextChunker.process_scraped_data split tokenLen docs)).2) := by
  refine ⟨?_, ?_, ?_⟩
  · intro ids
    cases hqa : (if LanguageHandler.detect_language dOut = strL "en" then qaOut q
                 else qaOut (LanguageHandler.translate_to_english trQ q
                              (LanguageHandler.detect_language dOut))) with
    | ok r => unfold F1RAGChain.query; rw [hqa]; simp
    | error e => unfold F1RAGChain.query; rw [hqa]; simp
  · cases hqa : (if LanguageHandler.detect_language dOut = strL "en" then qaOut q
                 else qaOut (LanguageHandler.translate_to_english trQ q
                              (LanguageHandler.detect_language dOut))) with
    | ok r => unfold F1RAGChain.query; rw [hqa]; exact ⟨_, rfl⟩
    | error e => unfold F1RAGChain.query; rw [hqa]; exact ⟨_, rfl⟩
  · intro eff heff
    cases scrapeOut with
    | error e =>
        simp only [App.scrape_and_update] at heff
        cases heff
    | ok docs =>
        rw [scrape_and_update_effects, upsert_chunks_effects] at heff
        simp only [List.mem_singleton] at heff
        exact ⟨docs, rfl, heff, by rw [upsert_chunks_effects]; simp [heff]⟩

/-- C8 witness: a concrete query run traces exactly one retrieval. -/
theorem serving_path_read_only_witness :
    ∃ s, (F1RAGChain.query (.ok (strL "en")) (.ok []) (.ok [])
           (fun _ => .ok ⟨strL "A.", []⟩) (strL "q")).2 = [VEffect.retrieve s] :=
  (serving_path_read_only (.ok (strL "en")) (.ok []) (.ok [])
     (fun _ => .ok ⟨strL "A.", []⟩) (strL "q") (fun t => .ok [t]) List.length
     (.ok []) (.ok ())).2.1

/-- A splitter outcome for concrete evaluation: the whole text as one
chunk (the recursive splitter on a text below the chunk size). -/
def cexSplit : List Char → Except (List Char) (List (List Char)) := fun t => .ok [t]

/-- A token length for concrete evaluation: the character count. -/
def cexTokenLen : List Char → Nat := List.length

/-- A concrete Wikipedia document with one section, routed by
process_scraped_data to chunk_wikipedia_sections. -/
def wikiDocCex : RawDoc :=
  { title := some (strL "T"), url := some (strL "u"),
    source := some (strL "Wikipedia"),
    sections := [{ sectionName := some (strL "S"), content := some (strL "hello") }] }

/-- C1 counterexample: the Wikipedia-section path of process_scraped_data
produces a chunk whose id is u_section_0_0, not the claimed
url_index form u_0, and whose metadata has no total_chunks key. -/
theorem chunk_metadata_ids_cex :
    (F1TextChunker.process_scraped_data cexSplit cexTokenLen [wikiDocCex]).map Chunk.id
      = [strL "u_section_0_0"]
  ∧ strL "u_section_0_0" ≠ strL "u" ++ strL "_" ++ natChars 0
  ∧ (F1TextChunker.process_scraped_data cexSplit cexTokenLen [wikiDocCex]).map
      (fun c => lookupMeta .total_chunks c.metadata) = [none] := by
  decide

/-- C1 amended: chunk_document gives chunk number i the id url_i, metadata
chunk_index i and total_chunks the number of chunks of the document; the
Wikipedia-section path instead gives ids url_summary_i or
url_section_k_i with metadata chunk_index equal to that trailing index i,
the index of the chunk within its summary or section (the last conjunct:
the chunk at position j of a summary or section block carries
chunk_index j), and no total_chunks key at all. -/
theorem chunk_metadata_ids_amended
    (split : List Char → Except (List Char) (List (List Char)))
    (tokenLen : List Char → Nat) (doc : RawDoc) (u : List Char)
    (chunks : List (List Char))
    (hu : doc.url = some u)
    (hs : split (F1TextChunker.fullText doc) = .ok chunks) :
    (F1TextChunker.chunk_document split tokenLen doc).length = chunks.length
  ∧ (∀ i c, (F1TextChunker.chunk_document split tokenLen doc).get? i = some c →
      c.id = u ++ strL "_" ++ natChars i
      ∧ lookupMeta .chunk_index c.metadata = some (.n i)
      ∧ lookupMeta .total_chunks c.metadata = some (.n chunks.length))
  ∧ (∀ c ∈ F1TextChunker.chunk_wikipedia_sections split tokenLen doc,
      lookupMeta .total_chunks c.metadata = none
      ∧ ((∃ i, c.id = u ++ strL "_summary_" ++ natChars i
            ∧ lookupMeta .chunk_index c.metadata = some (.n i))
         ∨ (∃ k i, c.id = u ++ strL "_section_" ++ natChars k ++ strL "_" ++ natChars i
            ∧ lookupMeta .chunk_index c.metadata = some (.n i))))
  ∧ (∀ (cs : List (List Char)) (j : Nat) (c : Chunk),
      ((F1TextChunker.buildWikiSummary tokenLen doc 0 cs).get? j = some c →
        lookupMeta .chunk_index c.metadata = some (.n j))
      ∧ (∀ (k : Nat) (nm : List Char),
          (F1TextChunker.buildWikiSectionChunks tokenLen doc k nm 0 cs).get? j = some c →
            lookupMeta .chunk_index c.metadata = some (.n j))) := by
  refine ⟨?_, ?_, ?_, ?_⟩
  · unfold F1TextChunker.chunk_document
    rw [hs]
    exact F1TextChunker.buildChunkDocs_length tokenLen doc chunks.length chunks 0
  · intro i c hc
    unfold F1TextChunker.chunk_document at hc
    rw [hs, F1TextChunker.buildChunkDocs_get?] at hc
    cases hg : chunks.get? i with
    | none => rw [hg] at hc; exact Option.noConfusion hc
    | some cc =>
        rw [hg] at hc
        rw [show Option.map (F1TextChunker.mkChunk tokenLen doc chunks.length (0 + i)) (some cc) = some (F1TextChunker.mkChunk tokenLen doc chunks.length (0 + i) cc) from rfl, Option.some_inj] at hc
        subst hc
        refine ⟨?_, ?_, ?_⟩
        · simp [F1TextChunker.mkChunk, hu]
        · simp [F1TextChunker.mkChunk, F1TextChunker.mkChunkMeta, lookupMeta]
        · simp [F1TextChunker.mkChunk, F1TextChunker.mkChunkMeta, lookupMeta]
  · intro c hc
    rcases F1TextChunker.mem_chunk_wikipedia_sections split tokenLen doc c hc with
      ⟨j, cc, he⟩ | ⟨k, j, nm, cc, he⟩
    · subst he
      refine ⟨by simp [F1TextChunker.mkWikiSummaryChunk, lookupMeta], Or.inl ⟨j, ?_, ?_⟩⟩
      · simp [F1TextChunker.mkWikiSummaryChunk, hu]
      · simp [F1TextChunker.mkWikiSummaryChunk, lookupMeta]
    · subst he
      refine ⟨by simp [F1TextChunker.mkWikiSectionChunk, lookupMeta],
              Or.inr ⟨k, j, ?_, ?_⟩⟩
      · simp [F1TextChunker.mkWikiSectionChunk, hu]
      · simp [F1TextChunker.mkWikiSectionChunk, lookupMeta]
  · intro cs j c
    constructor
    · intro hg
      rw [F1TextChunker.buildWikiSummary_get?] at hg
      cases hcs : cs.get? j with
      | none => rw [hcs] at hg; exact Option.noConfusion hg
      | some cc =>
          rw [hcs] at hg
          rw [show Option.map (fun c => F1TextChunker.mkWikiSummaryChunk tokenLen doc (0 + j) c)
                (some cc) = some (F1TextChunker.mkWikiSummaryChunk tokenLen doc (0 + j) cc)
              from rfl, Option.some_inj] at hg
          subst hg
          simp [F1TextChunker.mkWikiSummaryChunk, lookupMeta]
    · intro k nm hg
      rw [F1TextChunker.buildWikiSectionChunks_get?] at hg
      cases hcs : cs.get? j with
      | none => rw [hcs] at hg; exact Option.noConfusion hg
      | some cc =>
          rw [hcs] at hg
          rw [show Option.map (fun c => F1TextChunker.mkWikiSectionChunk tokenLen doc k (0 + j) nm c)
                (some cc) = some (F1TextChunker.mkWikiSectionChunk tokenLen doc k (0 + j) nm cc)
              from rfl, Option.some_inj] at hg
          subst hg
          simp [F1TextChunker.mkWikiSectionChunk, lookupMeta]

/-- C1 witness: the amended statement evaluated on the concrete document,
with the splitter returning the full text as its one chunk. -/
theorem chunk_metadata_ids_amended_witness :
    (F1TextChunker.chunk_document cexSplit cexTokenLen wikiDocCex).length = 1 := by
  have h := chunk_metadata_ids_amended cexSplit cexTokenLen wikiDocCex (strL "u")
    [F1TextChunker.fullText wikiDocCex] rfl rfl
  simpa using h.1

/-- C2: every chunk built by chunk_document carries token_count equal to
the token length of its content, so when the splitter keeps its chunks
within the configured chunk size, every token_count is at most
CHUNK_SIZE + CHUNK_OVERLAP (612 in the default configuration). -/
theorem token_count_within_configured_bound
    (split : List Char → Except (List Char) (List (List Char)))
    (tokenLen : List Char → Nat) (doc : RawDoc) (chunks : List (List Char))
    (hs : split (F1TextChunker.fullText doc) = .ok chunks)
    (hb : ∀ c ∈ chunks, tokenLen c ≤ Config.CHUNK_SIZE) :
    ∀ ch ∈ F1TextChunker.chunk_document split tokenLen doc,
      ∃ tc, lookupMeta .token_count ch.metadata = some (.n tc)
        ∧ tc ≤ Config.CHUNK_SIZE + Config.CHUNK_OVERLAP := by
  intro ch hch
  unfold F1TextChunker.chunk_document at hch
  rw [hs] at hch
  obtain ⟨j, c, hc, he⟩ :=
    F1TextChunker.mem_buildChunkDocs tokenLen doc chunks.length chunks 0 ch hch
  subst he
  refine ⟨tokenLen c, ?_, ?_⟩
  · simp [F1TextChunker.mkChunk, F1TextChunker.mkChunkMeta, lookupMeta]
  · have hbc := hb c hc
    simp only [Config.CHUNK_SIZE, Config.CHUNK_OVERLAP] at hbc ⊢
    omega

/-- C2 witness: the bound evaluated on a concrete document whose one chunk
has 9 characters. -/
theorem token_count_within_configured_bound_witness :
    ∃ tc, lookupMeta .token_count
        (F1TextChunker.mkChunk cexTokenLen {} 1 0 (F1TextChunker.fullText {})).metadata
        = some (.n tc)
      ∧ tc ≤ Config.CHUNK_SIZE + Config.CHUNK_OVERLAP :=
  token_count_within_configured_bound cexSplit cexTokenLen {}
    [F1TextChunker.fullText {}] rfl (by decide)
    (F1TextChunker.mkChunk cexTokenLen {} 1 0 (F1TextChunker.fullText {})) (by decide)
